import Mathlib

/-!
Verification of the resurviv server core (lobby, group and matchmaking logic).

The definitions below are a shallow embedding of the TypeScript sources
`src/server/src/group.ts` (classes `Group`, `Game`, `SingleThreadGameManager`)
and `src/server/src/teamMenu.ts` (class `TeamMenu`).  JavaScript object
identity is modelled by a numeric `id` field on players (each live JS object
is a distinct reference; the server gives every player object a unique id),
arrays by `List`, `Map` by an insertion-ordered association list, and the
random/asynchronous inputs of a handler (generated room codes, matchmaking
results) by explicit parameters.
-/

namespace Resurviv

/-- A match player as seen by the group / admission logic
(the fields of `objects/player.ts` consumed by `group.ts`).
`id` models the JS object reference (`__id`). -/
structure Player where
  id : Nat
  dead : Bool
  downed : Bool
  disconnected : Bool
deriving DecidableEq

/-- `class Group` from group.ts: id, faction team id and the ordered
member array. -/
structure Group where
  groupId : Nat
  teamId : Nat
  players : List Player
deriving DecidableEq

/-- `Group.getAlivePlayers` / the filter `p => !p.dead && !p.disconnected`
used by `nextPlayer` and `prevPlayer`. -/
def Group.getAlivePlayers (g : Group) : List Player :=
  g.players.filter (fun p => !p.dead && !p.disconnected)

/-- `Group.allTeammatesDowned`: filters members other than `player` that are
not dead; an empty filter result is explicitly `false` (the source comments
on `every()` returning `true` on empty arrays), otherwise every survivor
must be downed. -/
def Group.allTeammatesDowned (g : Group) (player : Player) : Bool :=
  let filteredPlayers := g.players.filter (fun p => !(p.id == player.id) && !p.dead)
  if filteredPlayers.length == 0 then false
  else filteredPlayers.all (fun p => p.downed)

/-- `Group.allTeammatesDeadOrDisconnected`: `true` for the solo case
(`players.length == 1 && players[0] == player`, rendered as the match on a
singleton array below), else filters the other members; empty remainder is
`false`, otherwise all must be dead or disconnected. -/
def Group.allTeammatesDeadOrDisconnected (g : Group) (player : Player) : Bool :=
  if (match g.players with
      | [q] => q.id == player.id
      | _ => false) then
    true
  else
    let filteredPlayers := g.players.filter (fun p => !(p.id == player.id))
    if filteredPlayers.length == 0 then false
    else filteredPlayers.all (fun p => p.dead || p.disconnected)

/-- Position of the first player with the given id, if any. -/
def jsIndexOfAux (l : List Player) (pid : Nat) : Option Nat :=
  match l with
  | [] => none
  | q :: qs => if q.id == pid then some 0 else (jsIndexOfAux qs pid).map (· + 1)

/-- JS `Array.prototype.indexOf` under reference equality (modelled by
`Player.id`): index of the first occurrence, `-1` if absent. -/
def jsIndexOf (l : List Player) (p : Player) : Int :=
  match jsIndexOfAux l p.id with
  | some j => (j : Int)
  | none => -1

/-- JS array read `l[i]`: `undefined` (here `none`) for a negative or
out-of-range index. -/
def jsGet (l : List Player) (i : Int) : Option Player :=
  if i < 0 then none else l.get? i.toNat

/-- `Group.nextPlayer`: next alive player cyclically,
`alivePlayers[(alivePlayers.indexOf(current) + 1) % alivePlayers.length]`.
(For the in-range indices the claims are about, `Int.emod` agrees with the
JS `%`; on an empty alive array both sides read out of range and yield
`undefined`/`none`.) -/
def Group.nextPlayer (g : Group) (currentPlayer : Player) : Option Player :=
  let alivePlayers := g.getAlivePlayers
  let currentPlayerIndex := jsIndexOf alivePlayers currentPlayer
  jsGet alivePlayers ((currentPlayerIndex + 1) % (alivePlayers.length : Int))

/-- `Group.prevPlayer`: previous alive player,
`index == 0 ? alivePlayers.length - 1 : index - 1`. -/
def Group.prevPlayer (g : Group) (currentPlayer : Player) : Option Player :=
  let alivePlayers := g.getAlivePlayers
  let currentPlayerIndex := jsIndexOf alivePlayers currentPlayer
  jsGet alivePlayers
    (if currentPlayerIndex = 0 then (alivePlayers.length : Int) - 1
     else currentPlayerIndex - 1)

/-! ### `class Game` (game.ts part of group.ts) -/

/-- One queued emote, `new Emote(player.__id, emoteMsg.pos, emoteMsg.type,
emoteMsg.isPing)`.  Coordinates are opaque payload here. -/
structure EmoteEntry where
  playerId : Nat
  pos : Int × Int
  etype : Nat
  isPing : Bool
deriving DecidableEq

/-- The state of one `Game` consumed by the claims: lifecycle flags, clock,
mode, the player barn's living players and socket map, the gas stage and
the map definition's capacity (`map.mapDef.gameMode.maxPlayers`). -/
structure Game where
  id : String
  teamMode : Nat
  gameModeIdx : Nat
  startedTime : ℚ
  over : Bool
  gasStage : Nat
  livingPlayers : List Player
  maxPlayers : Nat
  socketIdToPlayer : List (String × Player)
  emotes : List EmoteEntry
deriving DecidableEq

/-- `get aliveCount` = `playerBarn.livingPlayers.length`. -/
def Game.aliveCount (g : Game) : Nat :=
  g.livingPlayers.length

/-- `get canJoin` =
`aliveCount < map.mapDef.gameMode.maxPlayers && !over && gas.stage < 2`. -/
def Game.canJoin (g : Game) : Bool :=
  decide (g.aliveCount < g.maxPlayers) && !g.over && decide (g.gasStage < 2)

/-- Inbound match socket message, discriminated by `net.MsgType`.  Payloads
other than the emote's are opaque to the dispatcher and carried as tokens. -/
inductive GameInMsg where
  | join (payload : Nat)
  | input (payload : Nat)
  | emote (pos : Int × Int) (etype : Nat) (isPing : Bool)
  | dropItem (payload : Nat)
  | spectate (payload : Nat)
deriving DecidableEq

/-- The externally visible dispatch decision of `Game.handleMsg`: which
collaborator (player handler / playerBarn / socket close) the message was
routed to.  The bodies of those handlers live outside group.ts. -/
inductive GameAction where
  | joinedPlayer (socketId : String) (payload : Nat)
  | closedSocket (socketId : String)
  | inputHandled (playerId : Nat) (payload : Nat)
  | dropItemHandled (playerId : Nat) (payload : Nat)
  | spectateHandled (playerId : Nat) (payload : Nat)
  | noAction
deriving DecidableEq

/-- `playerBarn.socketIdToPlayer.get(socketId)`. -/
def lookupSocket (m : List (String × Player)) (sid : String) : Option Player :=
  (m.find? (fun e => e.1 == sid)).map (fun e => e.2)

/-- `Game.handleMsg`: a Join from an unknown socket goes to
`playerBarn.addPlayer`; any other message from an unknown socket closes the
socket; Input/DropItem/Spectate are dispatched to the player's own handler;
an Emote is queued on the player barn unless the player is dead
(`if (player.dead) break`), in which case nothing happens.  A Join from a
socket that already has a player falls through every switch case. -/
def Game.handleMsg (g : Game) (msg : GameInMsg) (socketId : String) :
    Game × GameAction :=
  match lookupSocket g.socketIdToPlayer socketId with
  | none =>
    match msg with
    | .join payload => (g, .joinedPlayer socketId payload)
    | _ => (g, .closedSocket socketId)
  | some player =>
    match msg with
    | .join _ => (g, .noAction)
    | .input payload => (g, .inputHandled player.id payload)
    | .emote pos etype isPing =>
      if player.dead then (g, .noAction)
      else
        ({ g with emotes := g.emotes ++ [⟨player.id, pos, etype, isPing⟩] },
         .noAction)
    | .dropItem payload => (g, .dropItemHandled player.id payload)
    | .spectate payload => (g, .spectateHandled player.id payload)

/-! ### `SingleThreadGameManager.findGame` (gameManager.ts part of group.ts) -/

/-- One entry of `Config.modes`. -/
structure ModeCfg where
  teamMode : Nat
  mapName : String
deriving DecidableEq

/-- The fallback mode, only used to totalize the `Config.modes` read. -/
def defaultModeCfg : ModeCfg := { teamMode := 1, mapName := "main" }

/-- The `Game` constructor as invoked by `newGame`: fresh clock, not over,
gas at its initial stage, no players; `gameModeIdx = floor(teamMode / 2)`.
Capacity comes from the (external) map definition and is passed in. -/
def mkNewGame (id : String) (cfg : ModeCfg) (maxPlayers : Nat) : Game :=
  { id := id
    teamMode := cfg.teamMode
    gameModeIdx := cfg.teamMode / 2
    startedTime := 0
    over := false
    gasStage := 0
    livingPlayers := []
    maxPlayers := maxPlayers
    socketIdToPlayer := []
    emotes := [] }

/-- Head of the JS stable ascending sort
`.sort((a, b) => a.startedTime - b.startedTime)[0]`: the first element
attaining the minimal `startedTime`, `none` on an empty array. -/
def pickEarliest (l : List Game) : Option Game :=
  match l with
  | [] => none
  | x :: xs =>
    some (xs.foldl (fun b g => if g.startedTime < b.startedTime then g else b) x)

/-- The candidate filter of `SingleThreadGameManager.findGame`:
`games.filter(game => game.canJoin() && game.gameModeIdx === body.gameModeIdx)`. -/
def joinableGames (games : List Game) (gameModeIdx : Nat) : List Game :=
  games.filter (fun game => game.canJoin && game.gameModeIdx == gameModeIdx)

/-- The game-selection part of `SingleThreadGameManager.findGame`: take the
earliest-started joinable game for the requested mode, and otherwise create
a new game from `Config.modes[body.gameModeIdx]`.  Returns `response.gameId`
together with the (possibly extended) games array; the fresh game's random
id and map-derived capacity are supplied by the caller.  (Group/join-token
placement for team modes acts on the chosen game, not on the selection.) -/
def findGame (games : List Game) (gameModeIdx : Nat) (modes : List ModeCfg)
    (freshId : String) (freshMaxPlayers : Nat) : String × List Game :=
  match pickEarliest (joinableGames games gameModeIdx) with
  | some game => (game.id, games)
  | none =>
    let mode := modes.getD gameModeIdx defaultModeCfg
    let game := mkNewGame freshId mode freshMaxPlayers
    (game.id, games ++ [game])

/-! ### `class TeamMenu` (teamMenu.ts) -/

/-- `math.clamp` on the integers involved here. -/
def clamp (a mn mx : Nat) : Nat := min (max a mn) mx

/-- `RoomData` from shared/net. -/
structure RoomData where
  roomUrl : String
  region : String
  gameModeIdx : Nat
  enabledGameModeIdxs : List Nat
  autoFill : Bool
  findingGame : Bool
  lastError : String
  maxPlayers : Nat
deriving DecidableEq

/-- `RoomPlayer`: lobby player plus its socket container, identified by the
container's socket (`socketData` reference equality = socket identity). -/
structure RoomPlayer where
  name : String
  isLeader : Bool
  inGame : Bool
  playerId : Int
  socketId : Nat
deriving DecidableEq

/-- `Room`. -/
structure Room where
  id : String
  roomData : RoomData
  players : List RoomPlayer
deriving DecidableEq

/-- `TeamMenuPlayerContainer`: the per-socket mutable record carrying the
socket identity and its current `roomUrl`. -/
structure Container where
  roomUrl : String
  socketId : Nat
deriving DecidableEq

/-- The lobby's room map `rooms: Map<string, Room>`, keyed by room url, as
an insertion-ordered association list. -/
structure TeamMenu where
  rooms : List (String × Room)
deriving DecidableEq

/-- `Map.get`. -/
def mapGet (m : List (String × Room)) (k : String) : Option Room :=
  (m.find? (fun e => e.1 == k)).map (fun e => e.2)

/-- `Map.set`: update in place when the key exists (JS keeps insertion
order), append otherwise. -/
def mapSet (m : List (String × Room)) (k : String) (v : Room) :
    List (String × Room) :=
  if m.any (fun e => e.1 == k) then
    m.map (fun e => if e.1 == k then (k, v) else e)
  else m ++ [(k, v)]

/-- `Map.delete`. -/
def mapDelete (m : List (String × Room)) (k : String) : List (String × Room) :=
  m.filter (fun e => !(e.1 == k))

/-- A per-recipient entry of the `state` broadcast payload
(`players.map((player, id) => ...)`). -/
structure PlayerView where
  name : String
  playerId : Nat
  isLeader : Bool
  inGame : Bool
deriving DecidableEq

/-- Server→client lobby messages (`ServerToClientTeamMsg`). -/
inductive SMsg where
  | stateMsg (localPlayerId : Nat) (room : RoomData) (players : List PlayerView)
  | errorMsg (etype : String)
  | kickedMsg
  | keepAliveMsg
  | joinGameMsg (gameId : String) (data : String)
deriving DecidableEq

/-- `teamErrorMsg`. -/
def teamErrorMsg (etype : String) : SMsg := .errorMsg etype

/-- The `players` array embedded in every `state` message. -/
def playerViews (ps : List RoomPlayer) : List PlayerView :=
  ps.enum.map (fun e =>
    { name := e.2.name, playerId := e.1, isLeader := e.2.isLeader,
      inGame := e.2.inGame })

/-- `TeamMenu.sendRoomState`: one `state` message per member, with
`localPlayerId = room.players.indexOf(player)`.  Sent messages are returned
as `(socketId, msg)` pairs. -/
def sendRoomState (room : Room) : List (Nat × SMsg) :=
  room.players.map (fun player =>
    (player.socketId,
     SMsg.stateMsg (room.players.indexOf player) room.roomData
       (playerViews room.players)))

/-- `TeamMenu.addRoom`: builds the room value (capacity derived as
`clamp(gameModeIdx * 2, 2, 4)`, `enabledGameModeIdxs` fixed to `[1, 2]`)
and `set`s it under the room url. -/
def addRoom (tm : TeamMenu) (id roomUrl : String) (initialRoomData : RoomData)
    (roomLeader : RoomPlayer) : TeamMenu × Room :=
  let value : Room :=
    { id := id
      roomData :=
        { roomUrl := roomUrl
          region := initialRoomData.region
          gameModeIdx := initialRoomData.gameModeIdx
          enabledGameModeIdxs := [1, 2]
          autoFill := initialRoomData.autoFill
          findingGame := initialRoomData.findingGame
          lastError := initialRoomData.lastError
          maxPlayers := clamp (initialRoomData.gameModeIdx * 2) 2 4 }
      players := [roomLeader] }
  ({ rooms := mapSet tm.rooms roomUrl value }, value)

/-- `TeamMenu.removePlayer`.  The found player is spliced out of
`room.players`; an emptied room is deleted; if the removed player was
leader, `players[0].isLeader = true`; the survivors get a state broadcast.
When no member matches the container (`find` returns `undefined`),
`indexOf(undefined)` is `-1` and `splice(-1, 1)` removes the *last*
element, after which the handler either deletes the emptied room or throws
on `pToRemove.isLeader` with no broadcast — the mutated map survives. -/
def removePlayer (tm : TeamMenu) (playerContainer : Container) :
    TeamMenu × List (Nat × SMsg) :=
  match mapGet tm.rooms playerContainer.roomUrl with
  | none => (tm, [])
  | some room =>
    match room.players.find? (fun p => p.socketId == playerContainer.socketId) with
    | none =>
      let players1 := room.players.dropLast
      if players1.isEmpty then
        ({ rooms := mapDelete tm.rooms playerContainer.roomUrl }, [])
      else
        ({ rooms := mapSet tm.rooms playerContainer.roomUrl
            { room with players := players1 } }, [])
    | some pToRemove =>
      let players1 := room.players.eraseIdx (room.players.indexOf pToRemove)
      if players1.isEmpty then
        ({ rooms := mapDelete tm.rooms playerContainer.roomUrl }, [])
      else
        let players2 :=
          if pToRemove.isLeader then
            match players1 with
            | [] => []
            | q :: qs => { q with isLeader := true } :: qs
          else players1
        let room1 : Room := { room with players := players2 }
        ({ rooms := mapSet tm.rooms playerContainer.roomUrl room1 },
         sendRoomState room1)

/-- `TeamMenu.modifyRoom`: the allow-listed mutable fields, with the
capacity re-derived from the new mode index. -/
def modifyRoom (newRoomData : RoomData) (rd : RoomData) : RoomData :=
  { rd with
    gameModeIdx := newRoomData.gameModeIdx
    maxPlayers := clamp (newRoomData.gameModeIdx * 2) 2 4
    autoFill := newRoomData.autoFill
    region := newRoomData.region }

/-- Replace the first element satisfying `pred` (JS mutates the found
object in place). -/
def updateFirst (pred : RoomPlayer → Bool) (f : RoomPlayer → RoomPlayer) :
    List RoomPlayer → List RoomPlayer
  | [] => []
  | p :: ps => if pred p then f p :: ps else p :: updateFirst pred f ps

/-- Client→server lobby messages (`ClientToServerTeamMsg`). -/
inductive CMsg where
  | create (playerName : String) (roomData : RoomData)
  | join (roomUrl : String) (playerName : String)
  | changeName (name : String)
  | setRoomProps (roomData : RoomData)
  | kick (playerId : Nat)
  | keepAlive
  | playGame (region : String)
  | gameComplete
deriving DecidableEq

/-- Result of `server.findGame(region).res[0]`: either an error object
(`"err" in playData`) or a game id. -/
inductive FindGameRes where
  | err
  | ok (gameId : String)
deriving DecidableEq

/-- The handler's environment: the room code and internal id `create` would
generate (the collision-regeneration loop is modelled by supplying its
final, fresh value), the matchmaking result `playGame` would receive, and
the server's games array it searches. -/
structure MenuCtx where
  freshRoomUrl : String
  freshRoomId : String
  findGameRes : FindGameRes
  games : List Game
deriving DecidableEq

/-- Result of one `TeamMenu.handleMsg` call: the new room map, the possibly
updated socket container, and all messages sent, in order. -/
structure HandleOut where
  menu : TeamMenu
  container : Container
  msgs : List (Nat × SMsg)
deriving DecidableEq

/-- A no-effect exit (a guard `return`, or a thrown non-null assertion
before any mutation). -/
def noChange (tm : TeamMenu) (c : Container) : HandleOut :=
  { menu := tm, container := c, msgs := [] }

/-- `TeamMenu.handleMsg`, case by case on the message type.  Lookups that
the source performs with a non-null assertion (`!`) throw before any
mutation when they fail; those exits leave the state unchanged and send
nothing. -/
def handleMsg (tm : TeamMenu) (localPlayerData : Container) (msg : CMsg)
    (ctx : MenuCtx) : HandleOut :=
  match msg with
  | .create playerName roomDataIn =>
    let name := if playerName != "" then playerName else "Player"
    let player : RoomPlayer :=
      { name := name, isLeader := true, inGame := false, playerId := 0,
        socketId := localPlayerData.socketId }
    let roomUrl := "#" ++ ctx.freshRoomUrl
    let c1 : Container := { localPlayerData with roomUrl := roomUrl }
    let out := addRoom tm ctx.freshRoomId roomUrl roomDataIn player
    -- `addRoom` always returns the room object, so the `create_failed`
    -- branch (`if (!room)`) is unreachable.
    { menu := out.1, container := c1, msgs := sendRoomState out.2 }
  | .join roomUrlIn playerName =>
    let roomUrl := "#" ++ roomUrlIn
    match mapGet tm.rooms roomUrl with
    | none =>
      { menu := tm, container := localPlayerData,
        msgs := [(localPlayerData.socketId, teamErrorMsg "join_failed")] }
    | some room =>
      if room.roomData.maxPlayers == room.players.length then
        { menu := tm, container := localPlayerData,
          msgs := [(localPlayerData.socketId, teamErrorMsg "join_full")] }
      else
        let name := if playerName != "" then playerName else "Player"
        let player : RoomPlayer :=
          { name := name, isLeader := false, inGame := false,
            playerId := (room.players.length : Int) - 1,
            socketId := localPlayerData.socketId }
        let room1 : Room := { room with players := room.players ++ [player] }
        let c1 : Container := { localPlayerData with roomUrl := roomUrl }
        { menu := { rooms := mapSet tm.rooms roomUrl room1 }, container := c1,
          msgs := sendRoomState room1 }
  | .changeName newName =>
    match mapGet tm.rooms localPlayerData.roomUrl with
    | none => noChange tm localPlayerData
    | some room =>
      match room.players.find? (fun p => p.socketId == localPlayerData.socketId) with
      | none => noChange tm localPlayerData
      | some _ =>
        let players1 := updateFirst (fun p => p.socketId == localPlayerData.socketId)
          (fun p => { p with name := newName }) room.players
        let room1 : Room := { room with players := players1 }
        { menu := { rooms := mapSet tm.rooms localPlayerData.roomUrl room1 },
          container := localPlayerData, msgs := sendRoomState room1 }
  | .setRoomProps newRoomData =>
    match mapGet tm.rooms localPlayerData.roomUrl with
    | none => noChange tm localPlayerData
    | some room =>
      match room.players.find? (fun p => p.socketId == localPlayerData.socketId) with
      | none => noChange tm localPlayerData
      | some player =>
        if !player.isLeader then noChange tm localPlayerData
        else
          let room1 : Room := { room with roomData := modifyRoom newRoomData room.roomData }
          { menu := { rooms := mapSet tm.rooms localPlayerData.roomUrl room1 },
            container := localPlayerData, msgs := sendRoomState room1 }
  | .kick playerId =>
    match mapGet tm.rooms localPlayerData.roomUrl with
    | none => noChange tm localPlayerData
    | some room =>
      match room.players.find? (fun p => p.socketId == localPlayerData.socketId) with
      | none => noChange tm localPlayerData
      | some player =>
        if !player.isLeader then noChange tm localPlayerData
        else
          match room.players.get? playerId with
          | none => noChange tm localPlayerData
          | some pToKick =>
            if pToKick == player then noChange tm localPlayerData
            else
              -- source: `this.removePlayer(localPlayerData)` — the *sender's*
              -- container, not the kick target's.
              let out := removePlayer tm localPlayerData
              { menu := out.1, container := localPlayerData,
                msgs := out.2 ++ [(pToKick.socketId, SMsg.kickedMsg)] }
  | .keepAlive =>
    match mapGet tm.rooms localPlayerData.roomUrl with
    | none => noChange tm localPlayerData
    | some room =>
      { menu := tm, container := localPlayerData,
        msgs := room.players.map (fun p => (p.socketId, SMsg.keepAliveMsg)) }
  | .playGame _ =>
    match mapGet tm.rooms localPlayerData.roomUrl with
    | none => noChange tm localPlayerData
    | some room =>
      match room.players.find? (fun p => p.socketId == localPlayerData.socketId) with
      | none => noChange tm localPlayerData
      | some player =>
        if !player.isLeader then noChange tm localPlayerData
        else
          let room1 : Room :=
            { room with roomData := { room.roomData with findingGame := true } }
          let tm1 : TeamMenu := { rooms := mapSet tm.rooms localPlayerData.roomUrl room1 }
          let msgs1 := sendRoomState room1
          match ctx.findGameRes with
          | .err =>
            { menu := tm1, container := localPlayerData,
              msgs := msgs1 ++ [(localPlayerData.socketId, teamErrorMsg "find_game_error")] }
          | .ok gameId =>
            match ctx.games.find? (fun game => game.id == gameId) with
            | none =>
              -- `games.find(...)!` is `undefined`: `.teamMode` throws after
              -- the findingGame broadcast, before any further mutation.
              { menu := tm1, container := localPlayerData, msgs := msgs1 }
            | some game =>
              if game.teamMode != room1.roomData.gameModeIdx * 2 then
                { menu := tm1, container := localPlayerData,
                  msgs := msgs1 ++ [(localPlayerData.socketId, teamErrorMsg "find_game_error")] }
              else
                -- `game.addGroup(room.id)` acts on the game, not the lobby.
                let joinMsgs := room1.players.map (fun p =>
                  (p.socketId, SMsg.joinGameMsg gameId room.id))
                let players2 := room1.players.map (fun p => { p with inGame := true })
                let room2 : Room :=
                  { room1 with
                    roomData := { room1.roomData with findingGame := false }
                    players := players2 }
                { menu := { rooms := mapSet tm.rooms localPlayerData.roomUrl room2 },
                  container := localPlayerData,
                  msgs := msgs1 ++ joinMsgs ++ sendRoomState room2 }
  | .gameComplete =>
    match mapGet tm.rooms localPlayerData.roomUrl with
    | none => noChange tm localPlayerData
    | some room =>
      match room.players.find? (fun p => p.socketId == localPlayerData.socketId) with
      | none => noChange tm localPlayerData
      | some _ =>
        let players1 := updateFirst (fun p => p.socketId == localPlayerData.socketId)
          (fun p => { p with inGame := false }) room.players
        let room1 : Room := { room with players := players1 }
        { menu := { rooms := mapSet tm.rooms localPlayerData.roomUrl room1 },
          container := localPlayerData, msgs := sendRoomState room1 }

/-! ## Theorems -/

/-- The shared `length == 0 ? false : every(...)` guard of the teammate
predicates, characterised over the unfiltered member list. -/
theorem jsEveryGuard (l : List Player) (pred prop : Player → Bool) :
    ((if (l.filter pred).length == 0 then false
      else (l.filter pred).all prop) = true)
    ↔ ((∃ q ∈ l, pred q = true) ∧ ∀ q ∈ l, pred q = true → prop q = true) := by
  by_cases hf : l.filter pred = []
  · rw [hf]
    rw [List.filter_eq_nil_iff] at hf
    simp only [List.length_nil, if_pos]
    constructor
    · intro h; exact absurd h (by simp)
    · rintro ⟨⟨q, hq, hpq⟩, -⟩
      exact absurd hpq (by simpa using hf q hq)
  · have hcond : ((l.filter pred).length == 0) = false := by
      simpa [List.length_eq_zero] using hf
    rw [hcond]
    simp only [Bool.false_eq_true, if_false, List.all_eq_true, List.mem_filter,
      and_imp]
    constructor
    · intro h
      refine ⟨?_, fun q hq hpq => h q hq (by simpa using hpq)⟩
      rcases List.exists_mem_of_ne_nil _ hf with ⟨q, hq⟩
      rcases List.mem_filter.mp hq with ⟨hql, hqp⟩
      exact ⟨q, hql, by simpa using hqp⟩
    · rintro ⟨-, h⟩ q hq hpq
      exact h q hq (by simpa using hpq)

/-- C4: `canJoin` is true iff the living-player count is strictly below the
map mode's capacity, the match is not over, and the gas is still strictly
below stage 2 (the early-game admission threshold). -/
theorem canJoin_iff (g : Game) :
    g.canJoin = true ↔
      (g.livingPlayers.length < g.maxPlayers ∧ g.over = false ∧ g.gasStage < 2) := by
  simp [Game.canJoin, Game.aliveCount, Bool.and_eq_true, decide_eq_true_eq,
    Bool.not_eq_true', and_assoc]

/-- C5: `allTeammatesDeadOrDisconnected` is true when the member sequence is
exactly the one passed-in player; otherwise it is true iff some other
member exists and every other member is dead or disconnected (so it is
false on an empty remainder). -/
theorem allTeammatesDeadOrDisconnected_iff (g : Group) (p : Player) :
    g.allTeammatesDeadOrDisconnected p = true ↔
      ((∃ q, g.players = [q] ∧ q.id = p.id) ∨
       ((∃ q ∈ g.players, q.id ≠ p.id) ∧
        ∀ q ∈ g.players, q.id ≠ p.id → (q.dead = true ∨ q.disconnected = true))) := by
  unfold Group.allTeammatesDeadOrDisconnected
  rcases hps : g.players with - | ⟨a, - | ⟨b, t⟩⟩
  · simp
  · by_cases hid : a.id = p.id
    · simp [hid]
    · have := jsEveryGuard [a] (fun q => !(q.id == p.id))
        (fun q => q.dead || q.disconnected)
      simp only [hid, beq_iff_eq, if_neg, Bool.not_eq_true] at this ⊢
      rw [if_neg (by simp [hid])]
      rw [this]
      constructor
      · rintro ⟨h1, h2⟩
        refine Or.inr ⟨?_, ?_⟩
        · rcases h1 with ⟨q, hq, hqp⟩
          exact ⟨q, hq, by simpa using hqp⟩
        · intro q hq hqp
          simpa [Bool.or_eq_true] using h2 q hq (by simpa using hqp)
      · rintro (⟨q, hq, hqp⟩ | ⟨h1, h2⟩)
        · cases hq
          exact absurd hqp hid
        · refine ⟨?_, ?_⟩
          · rcases h1 with ⟨q, hq, hqp⟩
            exact ⟨q, hq, by simpa using hqp⟩
          · intro q hq hqp
            simpa [Bool.or_eq_true] using h2 q hq (by simpa using hqp)
  · rw [if_neg (by simp)]
    rw [jsEveryGuard (a :: b :: t) (fun q => !(q.id == p.id))
      (fun q => q.dead || q.disconnected)]
    constructor
    · rintro ⟨h1, h2⟩
      refine Or.inr ⟨?_, ?_⟩
      · rcases h1 with ⟨q, hq, hqp⟩
        exact ⟨q, hq, by simpa using hqp⟩
      · intro q hq hqp
        simpa [Bool.or_eq_true] using h2 q hq (by simpa using hqp)
    · rintro (⟨q, hq, -⟩ | ⟨h1, h2⟩)
      · simp at hq
      · refine ⟨?_, ?_⟩
        · rcases h1 with ⟨q, hq, hqp⟩
          exact ⟨q, hq, by simpa using hqp⟩
        · intro q hq hqp
          simpa [Bool.or_eq_true] using h2 q hq (by simpa using hqp)

/-- C6: `allTeammatesDowned` is true iff some other not-dead member exists
and every other not-dead member is downed (empty remainder is explicitly
false); and the members' `disconnected` flags play no role in it. -/
theorem allTeammatesDowned_iff (g : Group) (p : Player) :
    (g.allTeammatesDowned p = true ↔
      ((∃ q ∈ g.players, q.id ≠ p.id ∧ q.dead = false) ∧
       ∀ q ∈ g.players, q.id ≠ p.id → q.dead = false → q.downed = true))
    ∧ ∀ f : Player → Bool,
        Group.allTeammatesDowned
          { g with players := g.players.map (fun q => { q with disconnected := f q }) } p
          = g.allTeammatesDowned p := by
  constructor
  · unfold Group.allTeammatesDowned
    rw [jsEveryGuard g.players (fun q => !(q.id == p.id) && !q.dead)
      (fun q => q.downed)]
    constructor
    · rintro ⟨⟨q, hq, hqp⟩, h2⟩
      refine ⟨⟨q, hq, ?_⟩, ?_⟩
      · simpa [Bool.and_eq_true, Bool.not_eq_true'] using hqp
      · intro r hr hrp hrd
        exact h2 r hr (by simp [Bool.and_eq_true, Bool.not_eq_true', hrp, hrd])
    · rintro ⟨⟨q, hq, hqp⟩, h2⟩
      refine ⟨⟨q, hq, ?_⟩, ?_⟩
      · simp [Bool.and_eq_true, Bool.not_eq_true', hqp.1, hqp.2]
      · intro r hr hrp
        rcases (by simpa [Bool.and_eq_true, Bool.not_eq_true'] using hrp :
          r.id ≠ p.id ∧ r.dead = false) with ⟨h3, h4⟩
        exact h2 r hr h3 h4
  · intro f
    unfold Group.allTeammatesDowned
    rw [List.filter_map]
    have hpred : ((fun q : Player => !(q.id == p.id) && !q.dead) ∘
        (fun q : Player => { q with disconnected := f q }))
        = (fun q : Player => !(q.id == p.id) && !q.dead) := rfl
    rw [hpred]
    simp [List.all_map, Function.comp]

/-- C10: `Game.handleMsg` silently drops an Emote from a dead player's
socket (no emote queued, state unchanged), while Input, DropItem and
Spectate from the same dead player are still dispatched to that player's
own handlers. -/
theorem handleMsg_dead_dispatch (g : Game) (sid : String) (p : Player)
    (hp : lookupSocket g.socketIdToPlayer sid = some p) (hd : p.dead = true) :
    (∀ pos etype isPing, g.handleMsg (.emote pos etype isPing) sid = (g, .noAction))
    ∧ (∀ payload, g.handleMsg (.input payload) sid = (g, .inputHandled p.id payload))
    ∧ (∀ payload, g.handleMsg (.dropItem payload) sid = (g, .dropItemHandled p.id payload))
    ∧ (∀ payload, g.handleMsg (.spectate payload) sid = (g, .spectateHandled p.id payload)) := by
  refine ⟨fun pos etype isPing => ?_, fun payload => ?_, fun payload => ?_,
    fun payload => ?_⟩ <;>
    simp [Game.handleMsg, hp, hd]

/-- A concrete game with a single, dead player on socket `"s"`. -/
def gC10 : Game :=
  { id := "g", teamMode := 2, gameModeIdx := 1, startedTime := 0, over := false,
    gasStage := 0, livingPlayers := [], maxPlayers := 80,
    socketIdToPlayer := [("s", ⟨7, true, false, false⟩)], emotes := [] }

/-- Witness for C10 at a concrete state: the dead player's emote is dropped
while input is still dispatched. -/
theorem handleMsg_dead_dispatch_witness :
    lookupSocket gC10.socketIdToPlayer "s" = some ⟨7, true, false, false⟩
    ∧ Player.dead ⟨7, true, false, false⟩ = true
    ∧ gC10.handleMsg (.emote (0, 0) 3 false) "s" = (gC10, .noAction)
    ∧ gC10.handleMsg (.input 5) "s" = (gC10, .inputHandled 7 5) :=
  ⟨rfl, rfl,
    (handleMsg_dead_dispatch gC10 "s" ⟨7, true, false, false⟩ rfl rfl).1 (0, 0) 3 false,
    (handleMsg_dead_dispatch gC10 "s" ⟨7, true, false, false⟩ rfl rfl).2.1 5⟩

/-- The earliest-started fold lands on the seed or on a list element. -/
theorem pickFold_mem (l : List Game) (b : Game) :
    l.foldl (fun b g => if g.startedTime < b.startedTime then g else b) b = b
    ∨ l.foldl (fun b g => if g.startedTime < b.startedTime then g else b) b ∈ l := by
  induction l generalizing b with
  | nil => exact Or.inl rfl
  | cons g t ih =>
    simp only [List.foldl_cons]
    rcases ih (if g.startedTime < b.startedTime then g else b) with h | h
    · rw [h]
      split
      · exact Or.inr (List.mem_cons_self _ _)
      · exact Or.inl rfl
    · exact Or.inr (List.mem_cons_of_mem _ h)

/-- The earliest-started fold is below its seed and every list element. -/
theorem pickFold_le (l : List Game) (b : Game) :
    (l.foldl (fun b g => if g.startedTime < b.startedTime then g else b) b).startedTime
      ≤ b.startedTime
    ∧ ∀ x ∈ l,
      (l.foldl (fun b g => if g.startedTime < b.startedTime then g else b) b).startedTime
        ≤ x.startedTime := by
  induction l generalizing b with
  | nil => simp
  | cons g t ih =>
    simp only [List.foldl_cons]
    have h := ih (if g.startedTime < b.startedTime then g else b)
    have hseed : (if g.startedTime < b.startedTime then g else b).startedTime
        ≤ b.startedTime := by
      split
      · exact le_of_lt ‹_›
      · exact le_refl _
    have hg : (if g.startedTime < b.startedTime then g else b).startedTime
        ≤ g.startedTime := by
      split
      · exact le_refl _
      · exact le_of_not_lt ‹_›
    refine ⟨le_trans h.1 hseed, ?_⟩
    intro x hx
    rcases List.mem_cons.mp hx with rfl | hx
    · exact le_trans h.1 hg
    · exact h.2 x hx

/-- C3: `findGame` returns a joinable game of the requested mode with the
smallest `startedTime` when one exists (leaving the games array alone), and
otherwise creates a game for `Config.modes[gameModeIdx]`, appends it and
returns its id. -/
theorem findGame_spec (games : List Game) (gameModeIdx : Nat)
    (modes : List ModeCfg) (freshId : String) (freshMaxPlayers : Nat) :
    (∀ g, pickEarliest (joinableGames games gameModeIdx) = some g →
        g ∈ joinableGames games gameModeIdx
        ∧ findGame games gameModeIdx modes freshId freshMaxPlayers = (g.id, games)
        ∧ ∀ g2 ∈ joinableGames games gameModeIdx, g.startedTime ≤ g2.startedTime)
    ∧ (pickEarliest (joinableGames games gameModeIdx) = none →
        joinableGames games gameModeIdx = []
        ∧ findGame games gameModeIdx modes freshId freshMaxPlayers =
            (freshId,
             games ++ [mkNewGame freshId (modes.getD gameModeIdx defaultModeCfg)
               freshMaxPlayers])
        ∧ (mkNewGame freshId (modes.getD gameModeIdx defaultModeCfg)
            freshMaxPlayers).teamMode = (modes.getD gameModeIdx defaultModeCfg).teamMode)
    ∧ (joinableGames games gameModeIdx ≠ [] →
        ∃ g, pickEarliest (joinableGames games gameModeIdx) = some g) := by
  refine ⟨?_, ?_, ?_⟩
  · intro g hg
    rcases hc : joinableGames games gameModeIdx with - | ⟨x, xs⟩
    · rw [hc] at hg; exact absurd hg (by simp [pickEarliest])
    · rw [hc] at hg
      have hfold :
          xs.foldl (fun b g => if g.startedTime < b.startedTime then g else b) x = g := by
        simpa [pickEarliest] using hg
      refine ⟨?_, ?_, ?_⟩
      · rw [← hfold]
        rcases pickFold_mem xs x with h | h
        · rw [h]; exact List.mem_cons_self _ _
        · exact List.mem_cons_of_mem _ h
      · unfold findGame
        rw [hc, hg]
      · intro g2 hg2
        rw [← hfold]
        rcases List.mem_cons.mp hg2 with rfl | h
        · exact (pickFold_le xs g2).1
        · exact (pickFold_le xs x).2 g2 h
  · intro h
    have hc : joinableGames games gameModeIdx = [] := by
      rcases hc : joinableGames games gameModeIdx with - | ⟨x, xs⟩
      · rfl
      · rw [hc] at h; exact absurd h (by simp [pickEarliest])
    refine ⟨hc, ?_, rfl⟩
    unfold findGame
    rw [h]
    rfl
  · intro h
    rcases hc : joinableGames games gameModeIdx with - | ⟨x, xs⟩
    · exact absurd hc h
    · exact ⟨_, rfl⟩

/-- A joinable mode-0 match started 10 seconds ago. -/
def gSlow : Game :=
  { id := "g10", teamMode := 1, gameModeIdx := 0, startedTime := 10, over := false,
    gasStage := 0, livingPlayers := [], maxPlayers := 80, socketIdToPlayer := [],
    emotes := [] }

/-- A joinable mode-0 match started 3 seconds ago. -/
def gFast : Game :=
  { id := "g3", teamMode := 1, gameModeIdx := 0, startedTime := 3, over := false,
    gasStage := 0, livingPlayers := [], maxPlayers := 80, socketIdToPlayer := [],
    emotes := [] }

/-- Witness for C3: with exactly the two qualifying matches of
`startedTime` 10 and 3, `findGame` selects the 3-second one. -/
theorem findGame_spec_witness :
    pickEarliest (joinableGames [gSlow, gFast] 0) = some gFast
    ∧ gFast ∈ joinableGames [gSlow, gFast] 0
    ∧ findGame [gSlow, gFast] 0 [] "fresh" 80 = (gFast.id, [gSlow, gFast])
    ∧ ∀ g2 ∈ joinableGames [gSlow, gFast] 0, gFast.startedTime ≤ g2.startedTime := by
  have h := (findGame_spec [gSlow, gFast] 0 [] "fresh" 80).1 gFast (by decide)
  exact ⟨by decide, h.1, h.2.1, h.2.2⟩

/-- On a list with pairwise-distinct player ids, the JS `indexOf` of the
element at position `i` is `i`. -/
theorem jsIndexOfAux_eq (l : List Player) (i : Nat) (p : Player)
    (hnd : (l.map Player.id).Nodup) (hget : l.get? i = some p) :
    jsIndexOfAux l p.id = some i := by
  induction l generalizing i with
  | nil => simp at hget
  | cons a t ih =>
    rcases i with - | i
    · have ha : a = p := by simpa using hget
      simp [jsIndexOfAux, ha]
    · have hget' : t.get? i = some p := by simpa using hget
      have hp : p ∈ t := List.get?_mem hget'
      have hsplit : (∀ x ∈ t, ¬x.id = a.id) ∧ (t.map Player.id).Nodup := by
        simpa using hnd
      have hne : ¬(a.id == p.id) = true := by
        simp only [beq_iff_eq]
        intro h
        exact hsplit.1 p hp h.symm
      rw [jsIndexOfAux, if_neg hne, ih i hsplit.2 hget']
      rfl

/-- C7: for a group whose alive members carry distinct ids, `nextPlayer`
of the alive member at position `i` is the alive member at position
`(i + 1) mod n`, and `prevPlayer` the one at position `(i + n - 1) mod n` —
cyclic navigation over the alive members, wrapping at both ends. -/
theorem nextPrev_cyclic (g : Group) (p : Player) (i : Nat)
    (hnd : (g.getAlivePlayers.map Player.id).Nodup)
    (hget : g.getAlivePlayers.get? i = some p) :
    g.nextPlayer p = g.getAlivePlayers.get? ((i + 1) % g.getAlivePlayers.length)
    ∧ g.prevPlayer p =
        g.getAlivePlayers.get?
          ((i + g.getAlivePlayers.length - 1) % g.getAlivePlayers.length) := by
  have hlen : i < g.getAlivePlayers.length := by
    by_contra h
    rw [List.get?_eq_none.mpr (le_of_not_lt h)] at hget
    cases hget
  have hidx : jsIndexOf g.getAlivePlayers p = (i : Int) := by
    simp [jsIndexOf, jsIndexOfAux_eq _ i p hnd hget]
  have hpos : 0 < g.getAlivePlayers.length := Nat.lt_of_le_of_lt (Nat.zero_le i) hlen
  have hcast : ∀ k : Nat, jsGet g.getAlivePlayers (k : Int) = g.getAlivePlayers.get? k := by
    intro k
    simp [jsGet]
  constructor
  · simp only [Group.nextPlayer, hidx]
    rw [show ((i : Int) + 1) % (g.getAlivePlayers.length : Int)
        = (((i + 1) % g.getAlivePlayers.length : Nat) : Int) from by norm_cast]
    exact hcast _
  · simp only [Group.prevPlayer, hidx]
    by_cases hi : i = 0
    · subst hi
      rw [if_pos (by norm_num)]
      rw [show ((g.getAlivePlayers.length : Int) - 1)
          = ((g.getAlivePlayers.length - 1 : Nat) : Int) from by omega]
      rw [hcast]
      congr 1
      rw [show 0 + g.getAlivePlayers.length - 1 = g.getAlivePlayers.length - 1 from by
        omega]
      exact (Nat.mod_eq_of_lt (by omega)).symm
    · rw [if_neg (by exact_mod_cast hi)]
      rw [show ((i : Int) - 1) = ((i - 1 : Nat) : Int) from by omega]
      rw [hcast]
      congr 1
      rw [show i + g.getAlivePlayers.length - 1
          = (i - 1) + g.getAlivePlayers.length from by omega]
      rw [Nat.add_mod_right]
      exact (Nat.mod_eq_of_lt (by omega)).symm

/-- Alive member A of the C7 witness group. -/
def pA : Player := ⟨1, false, false, false⟩

/-- Alive member B of the C7 witness group. -/
def pB : Player := ⟨2, false, false, false⟩

/-- Alive member C of the C7 witness group. -/
def pC : Player := ⟨3, false, false, false⟩

/-- A group whose alive members are exactly `[A, B, C]`. -/
def gABC : Group := ⟨1, 1, [pA, pB, pC]⟩

/-- Witness for C7: with alive members `[A, B, C]`, `nextPlayer C = A` and
`prevPlayer A = C`. -/
theorem nextPrev_cyclic_witness :
    ((gABC.getAlivePlayers.map Player.id).Nodup
      ∧ gABC.getAlivePlayers.get? 2 = some pC
      ∧ gABC.getAlivePlayers.get? 0 = some pA)
    ∧ gABC.nextPlayer pC = some pA ∧ gABC.prevPlayer pA = some pC := by
  have h1 := nextPrev_cyclic gABC pC 2 (by decide) (by decide)
  have h2 := nextPrev_cyclic gABC pA 0 (by decide) (by decide)
  refine ⟨⟨by decide, by decide, by decide⟩, ?_, ?_⟩
  · rw [h1.1]; decide
  · rw [h2.2]; decide

/-- Room data of a two-player capacity-2 room (mode index 1, so
`maxPlayers = clamp(2, 2, 4) = 2`). -/
def rdDuo : RoomData :=
  { roomUrl := "#AAAA", region := "na", gameModeIdx := 1,
    enabledGameModeIdxs := [1, 2], autoFill := true, findingGame := false,
    lastError := "", maxPlayers := 2 }

/-- The leader of the concrete room, on socket 0. -/
def leaderP : RoomPlayer :=
  { name := "L", isLeader := true, inGame := false, playerId := 0, socketId := 0 }

/-- The sole non-leader member, on socket 1. -/
def memberP : RoomPlayer :=
  { name := "M", isLeader := false, inGame := false, playerId := 0, socketId := 1 }

/-- A concrete room `#AAAA` holding the leader and one member. -/
def duoRoom : Room := { id := "rid", roomData := rdDuo, players := [leaderP, memberP] }

/-- A lobby holding exactly `duoRoom`. -/
def duoMenu : TeamMenu := { rooms := [("#AAAA", duoRoom)] }

/-- The leader's socket container. -/
def leaderC : Container := { roomUrl := "#AAAA", socketId := 0 }

/-- A context whose matchmaking call fails. -/
def errCtx : MenuCtx :=
  { freshRoomUrl := "", freshRoomId := "", findGameRes := .err, games := [] }

/-- C1, evaluated at the failing input: when the leader (socket 0) kicks
the member at index 1 (socket 1), the handler removes the *leader* from
the room — the room afterwards holds exactly the kick target, promoted to
leader — and both the state broadcast and the `kicked` notice go to the
target, who is still a member.  The claim instead requires the target to
be removed. -/
theorem kick_removes_sender_eval :
    (mapGet (handleMsg duoMenu leaderC (.kick 1) errCtx).menu.rooms "#AAAA").map
        (fun r => r.players.map (fun p => (p.socketId, p.isLeader)))
      = some [(1, true)]
    ∧ (handleMsg duoMenu leaderC (.kick 1) errCtx).msgs.map (fun m => m.1) = [1, 1]
    ∧ ((handleMsg duoMenu leaderC (.kick 1) errCtx).msgs.map (fun m => m.2)).get? 1
      = some SMsg.kickedMsg := by
  decide

/-- The room as mutated by `playGame` before matchmaking:
`roomData.findingGame = true`. -/
def findingRoom (room : Room) : Room :=
  { room with roomData := { room.roomData with findingGame := true } }

/-- A state broadcast contains no error messages. -/
theorem sendRoomState_no_error (room : Room) (e : String) :
    (sendRoomState room).filter (fun m => m.2 == teamErrorMsg e) = [] := by
  rw [List.filter_eq_nil_iff]
  intro m hm
  rcases List.mem_map.mp hm with ⟨p, -, rfl⟩
  simp [teamErrorMsg]

/-- C2: when the leader's `playGame` fails — matchmaking error, or a
returned game whose `teamMode` differs from `gameModeIdx * 2` — the
handler sends `find_game_error` to the leader and to nobody else, and the
only state change is that `findingGame` is left set to `true`; no
broadcast follows the initial `findingGame` one. -/
theorem playGame_failure (tm : TeamMenu) (c : Container) (room : Room)
    (sender : RoomPlayer) (ctx : MenuCtx) (region : String)
    (hroom : mapGet tm.rooms c.roomUrl = some room)
    (hfind : room.players.find? (fun p => p.socketId == c.socketId) = some sender)
    (hlead : sender.isLeader = true)
    (hfail : ctx.findGameRes = .err ∨
      ∃ gameId game, ctx.findGameRes = .ok gameId
        ∧ ctx.games.find? (fun g => g.id == gameId) = some game
        ∧ game.teamMode ≠ room.roomData.gameModeIdx * 2) :
    (handleMsg tm c (.playGame region) ctx).menu
        = { rooms := mapSet tm.rooms c.roomUrl (findingRoom room) }
    ∧ (handleMsg tm c (.playGame region) ctx).msgs
        = sendRoomState (findingRoom room)
            ++ [(c.socketId, teamErrorMsg "find_game_error")]
    ∧ (findingRoom room).roomData.findingGame = true
    ∧ ((handleMsg tm c (.playGame region) ctx).msgs.filter
          (fun m => m.2 == teamErrorMsg "find_game_error")).map (fun m => m.1)
        = [c.socketId] := by
  have hout : handleMsg tm c (.playGame region) ctx
      = { menu := { rooms := mapSet tm.rooms c.roomUrl (findingRoom room) },
          container := c,
          msgs := sendRoomState (findingRoom room)
            ++ [(c.socketId, teamErrorMsg "find_game_error")] } := by
    rcases hfail with herr | ⟨gameId, game, hok, hgame, hne⟩
    · simp [handleMsg, hroom, hfind, hlead, herr, findingRoom]
    · simp only [handleMsg, hroom, hfind, hlead, hok, hgame, Bool.not_true,
        Bool.false_eq_true, if_false, bne_iff_ne, ne_eq]
      rw [if_pos (by simpa using hne)]
      simp [findingRoom]
  refine ⟨by rw [hout], by rw [hout], rfl, ?_⟩
  rw [hout]
  simp only [List.filter_append, sendRoomState_no_error, List.nil_append]
  simp [teamErrorMsg]

/-- Witness for C2 at a concrete room and a failing matchmaking call. -/
theorem playGame_failure_witness :
    mapGet duoMenu.rooms leaderC.roomUrl = some duoRoom
    ∧ duoRoom.players.find? (fun p => p.socketId == leaderC.socketId) = some leaderP
    ∧ leaderP.isLeader = true
    ∧ errCtx.findGameRes = .err
    ∧ (handleMsg duoMenu leaderC (.playGame "na") errCtx).msgs
        = sendRoomState (findingRoom duoRoom)
            ++ [(0, teamErrorMsg "find_game_error")] := by
  refine ⟨by decide, by decide, rfl, rfl, ?_⟩
  exact (playGame_failure duoMenu leaderC duoRoom leaderP errCtx "na"
    (by decide) (by decide) rfl (Or.inl rfl)).2.1

/-- The non-leader player the `join` handler appends. -/
def joinPlayer (room : Room) (c : Container) (playerName : String) : RoomPlayer :=
  { name := if playerName != "" then playerName else "Player"
    isLeader := false
    inGame := false
    playerId := (room.players.length : Int) - 1
    socketId := c.socketId }

/-- The room after a successful `join`. -/
def joinedRoom (room : Room) (c : Container) (playerName : String) : Room :=
  { room with players := room.players ++ [joinPlayer room c playerName] }

/-- C8: a `join` with an unresolvable code answers `join_failed` and changes
nothing; a `join` to a room whose player count equals its derived capacity
`clamp(gameModeIdx * 2, 2, 4)` answers `join_full` and changes nothing;
otherwise a non-leader is appended and a state broadcast is sent. -/
theorem join_spec (tm : TeamMenu) (c : Container) (roomUrlIn playerName : String)
    (ctx : MenuCtx) :
    (mapGet tm.rooms ("#" ++ roomUrlIn) = none →
      handleMsg tm c (.join roomUrlIn playerName) ctx
        = { menu := tm, container := c,
            msgs := [(c.socketId, teamErrorMsg "join_failed")] })
    ∧ (∀ room, mapGet tm.rooms ("#" ++ roomUrlIn) = some room →
        room.roomData.maxPlayers = clamp (room.roomData.gameModeIdx * 2) 2 4 →
        room.players.length = clamp (room.roomData.gameModeIdx * 2) 2 4 →
        handleMsg tm c (.join roomUrlIn playerName) ctx
          = { menu := tm, container := c,
              msgs := [(c.socketId, teamErrorMsg "join_full")] })
    ∧ (∀ room, mapGet tm.rooms ("#" ++ roomUrlIn) = some room →
        room.roomData.maxPlayers ≠ room.players.length →
        (joinPlayer room c playerName).isLeader = false
        ∧ handleMsg tm c (.join roomUrlIn playerName) ctx
            = { menu :=
                  { rooms := mapSet tm.rooms ("#" ++ roomUrlIn)
                      (joinedRoom room c playerName) }
                container := { c with roomUrl := "#" ++ roomUrlIn }
                msgs := sendRoomState (joinedRoom room c playerName) }) := by
  refine ⟨?_, ?_, ?_⟩
  · intro h
    simp [handleMsg, h]
  · intro room hroom hcap hlen
    have heq : (room.roomData.maxPlayers == room.players.length) = true := by
      simp [hcap, hlen]
    simp [handleMsg, hroom, heq]
  · intro room hroom hne
    have heq : (room.roomData.maxPlayers == room.players.length) = false := by
      simpa using hne
    refine ⟨rfl, ?_⟩
    simp [handleMsg, hroom, heq, joinedRoom, joinPlayer]

/-- Witness for C8: the capacity-2 mode-1 room already holds two players,
so a third join attempt (socket 2) returns `join_full`. -/
theorem join_spec_witness :
    mapGet duoMenu.rooms ("#" ++ "AAAA") = some duoRoom
    ∧ duoRoom.roomData.maxPlayers = clamp (duoRoom.roomData.gameModeIdx * 2) 2 4
    ∧ duoRoom.players.length = clamp (duoRoom.roomData.gameModeIdx * 2) 2 4
    ∧ handleMsg duoMenu ⟨"", 2⟩ (.join "AAAA" "X") errCtx
        = { menu := duoMenu, container := ⟨"", 2⟩,
            msgs := [(2, teamErrorMsg "join_full")] } := by
  refine ⟨by decide, by decide, by decide, ?_⟩
  exact (join_spec duoMenu ⟨"", 2⟩ "AAAA" "X" errCtx).2.1 duoRoom
    (by decide) (by decide) (by decide)

/-- The per-room leader invariant: a room in the map is non-empty and has
exactly one player whose `isLeader` flag is set. -/
def roomOK (r : Room) : Bool :=
  !r.players.isEmpty && (r.players.countP (fun p => p.isLeader) == 1)

/-- The lobby invariant: every room in the room map satisfies `roomOK`. -/
def menuOK (tm : TeamMenu) : Bool :=
  tm.rooms.all (fun e => roomOK e.2)

theorem roomOK_iff (r : Room) :
    roomOK r = true ↔
      (r.players ≠ [] ∧ r.players.countP (fun p => p.isLeader) = 1) := by
  simp [roomOK, List.isEmpty_iff]

theorem menuOK_mem (tm : TeamMenu) (e : String × Room) (hOK : menuOK tm = true)
    (he : e ∈ tm.rooms) : roomOK e.2 = true :=
  List.all_eq_true.mp hOK e he

theorem menuOK_get (tm : TeamMenu) (u : String) (r : Room)
    (hOK : menuOK tm = true) (h : mapGet tm.rooms u = some r) : roomOK r = true := by
  unfold mapGet at h
  rcases hf : tm.rooms.find? (fun e => e.1 == u) with - | e
  · rw [hf] at h; cases h
  · rw [hf] at h
    obtain rfl : e.2 = r := by simpa using h
    exact menuOK_mem tm e hOK (List.mem_of_find?_eq_some hf)

theorem menuOK_set (tm : TeamMenu) (u : String) (r : Room)
    (hOK : menuOK tm = true) (hr : roomOK r = true) :
    menuOK { rooms := mapSet tm.rooms u r } = true := by
  unfold menuOK mapSet
  split
  · rw [List.all_eq_true]
    intro e he
    rcases List.mem_map.mp he with ⟨e0, he0, rfl⟩
    by_cases h0 : (e0.1 == u) = true
    · simp only [if_pos h0]
      exact hr
    · simp only [if_neg h0]
      exact menuOK_mem tm e0 hOK he0
  · rw [List.all_eq_true]
    intro e he
    rcases List.mem_append.mp he with h | h
    · exact menuOK_mem tm e hOK h
    · obtain rfl : e = (u, r) := by simpa using h
      exact hr

theorem menuOK_delete (tm : TeamMenu) (u : String) (hOK : menuOK tm = true) :
    menuOK { rooms := mapDelete tm.rooms u } = true := by
  unfold menuOK mapDelete
  rw [List.all_eq_true]
  intro e he
  exact menuOK_mem tm e hOK (List.mem_filter.mp he).1

theorem updateFirst_countP (pred : RoomPlayer → Bool) (f : RoomPlayer → RoomPlayer)
    (hf : ∀ p, (f p).isLeader = p.isLeader) (l : List RoomPlayer) :
    (updateFirst pred f l).countP (fun p => p.isLeader)
        = l.countP (fun p => p.isLeader)
    ∧ (updateFirst pred f l).length = l.length := by
  induction l with
  | nil => exact ⟨rfl, rfl⟩
  | cons p ps ih =>
    unfold updateFirst
    split
    · exact ⟨by simp [List.countP_cons, hf], by simp⟩
    · exact ⟨by simp [List.countP_cons, ih.1], by simp [ih.2]⟩

/-- `removePlayer` preserves the lobby leader invariant whenever the
container's player is actually a member of its room (which is the case for
both removal triggers, disconnect and kick). -/
theorem removePlayer_menuOK (tm : TeamMenu) (c : Container)
    (hOK : menuOK tm = true)
    (hpres : ∀ room, mapGet tm.rooms c.roomUrl = some room →
      ∃ p ∈ room.players, p.socketId = c.socketId) :
    menuOK (removePlayer tm c).1 = true := by
  unfold removePlayer
  rcases hroom : mapGet tm.rooms c.roomUrl with - | room
  · exact hOK
  · rcases hfind : room.players.find? (fun p => p.socketId == c.socketId)
      with - | pToRemove
    · exfalso
      rcases hpres room hroom with ⟨p, hp, hps⟩
      have h2 := List.find?_eq_none.mp hfind p hp
      simp [hps] at h2
    · simp only [hroom, hfind, List.eraseIdx_indexOf_eq_erase]
      have hmem : pToRemove ∈ room.players := List.mem_of_find?_eq_some hfind
      have hr := (roomOK_iff room).mp (menuOK_get tm c.roomUrl room hOK hroom)
      have hperm := List.perm_cons_erase hmem
      have hsplitc := hperm.countP_eq (fun p => p.isLeader)
      rw [List.countP_cons] at hsplitc
      split
      · exact menuOK_delete tm c.roomUrl hOK
      · next hne =>
        apply menuOK_set tm c.roomUrl _ hOK
        rw [roomOK_iff]
        have hne' : room.players.erase pToRemove ≠ [] := by
          simpa [List.isEmpty_iff] using hne
        by_cases hl2 : pToRemove.isLeader = true
        · rw [if_pos hl2]
          have hc0 : (room.players.erase pToRemove).countP (fun p => p.isLeader)
              = 0 := by
            rw [hr.2, hl2] at hsplitc
            simpa using hsplitc.symm
          rcases herase : room.players.erase pToRemove with - | ⟨q, qs⟩
          · exact absurd herase hne'
          · rw [herase, List.countP_cons] at hc0
            refine ⟨by simp, ?_⟩
            simp only [List.countP_cons]
            have hq0 : List.countP (fun p => p.isLeader) qs = 0 := by
              by_cases hq2 : q.isLeader = true
              · rw [if_pos hq2] at hc0; omega
              · rw [if_neg hq2] at hc0; omega
            simp [hq0]
        · rw [if_neg hl2]
          refine ⟨hne', ?_⟩
          rw [hr.2] at hsplitc
          simp only [Bool.not_eq_true] at hl2
          rw [hl2] at hsplitc
          simpa using hsplitc.symm

/-- Every lobby message handler preserves the leader invariant. -/
theorem handleMsg_menuOK (tm : TeamMenu) (c : Container) (msg : CMsg)
    (ctx : MenuCtx) (hOK : menuOK tm = true) :
    menuOK (handleMsg tm c msg ctx).menu = true := by
  cases msg with
  | create playerName roomDataIn =>
    simp only [handleMsg, addRoom]
    apply menuOK_set tm _ _ hOK
    rw [roomOK_iff]
    exact ⟨by simp, by simp [List.countP_cons]⟩
  | join roomUrlIn playerName =>
    simp only [handleMsg]
    rcases hroom : mapGet tm.rooms ("#" ++ roomUrlIn) with - | room
    · simp only [hroom]; exact hOK
    · simp only [hroom]
      by_cases hful : (room.roomData.maxPlayers == room.players.length) = true
      · rw [if_pos hful]; exact hOK
      · rw [if_neg hful]
        apply menuOK_set tm _ _ hOK
        have hr := (roomOK_iff room).mp (menuOK_get tm _ room hOK hroom)
        rw [roomOK_iff]
        refine ⟨by simp, ?_⟩
        rw [List.countP_append, hr.2]
        simp [List.countP_cons]
  | changeName newName =>
    simp only [handleMsg]
    rcases hroom : mapGet tm.rooms c.roomUrl with - | room
    · simp only [hroom]; exact hOK
    · simp only [hroom]
      rcases hfind : room.players.find? (fun p => p.socketId == c.socketId)
        with - | player
      · simp only [hfind]; exact hOK
      · simp only [hfind]
        apply menuOK_set tm _ _ hOK
        have hr := (roomOK_iff room).mp (menuOK_get tm _ room hOK hroom)
        have hu := updateFirst_countP (fun p => p.socketId == c.socketId)
          (fun p => { p with name := newName }) (fun p => rfl) room.players
        rw [roomOK_iff]
        constructor
        · intro hnil
          simp only at hnil
          have hlen := hu.2
          rw [hnil] at hlen
          exact hr.1 (List.length_eq_zero.mp hlen.symm)
        · rw [hu.1, hr.2]
  | setRoomProps newRoomData =>
    simp only [handleMsg]
    rcases hroom : mapGet tm.rooms c.roomUrl with - | room
    · simp only [hroom]; exact hOK
    · simp only [hroom]
      rcases hfind : room.players.find? (fun p => p.socketId == c.socketId)
        with - | player
      · simp only [hfind]; exact hOK
      · simp only [hfind]
        by_cases hl : (!player.isLeader) = true
        · rw [if_pos hl]; exact hOK
        · rw [if_neg hl]
          apply menuOK_set tm _ _ hOK
          exact menuOK_get tm _ room hOK hroom
  | kick playerId =>
    simp only [handleMsg]
    rcases hroom : mapGet tm.rooms c.roomUrl with - | room
    · simp only [hroom]; exact hOK
    · simp only [hroom]
      rcases hfind : room.players.find? (fun p => p.socketId == c.socketId)
        with - | player
      · simp only [hfind]; exact hOK
      · simp only [hfind]
        by_cases hl : (!player.isLeader) = true
        · rw [if_pos hl]; exact hOK
        · rw [if_neg hl]
          rcases hget : room.players.get? playerId with - | pToKick
          · simp only [hget]; exact hOK
          · simp only [hget]
            by_cases hself : (pToKick == player) = true
            · rw [if_pos hself]; exact hOK
            · rw [if_neg hself]
              apply removePlayer_menuOK tm c hOK
              intro room' hroom'
              rw [hroom] at hroom'
              obtain rfl : room = room' := Option.some.inj hroom'
              exact ⟨player, List.mem_of_find?_eq_some hfind,
                by simpa using List.find?_some hfind⟩
  | keepAlive =>
    simp only [handleMsg]
    rcases hroom : mapGet tm.rooms c.roomUrl with - | room
    · simp only [hroom]; exact hOK
    · simp only [hroom]; exact hOK
  | playGame region =>
    simp only [handleMsg]
    rcases hroom : mapGet tm.rooms c.roomUrl with - | room
    · simp only [hroom]; exact hOK
    · simp only [hroom]
      rcases hfind : room.players.find? (fun p => p.socketId == c.socketId)
        with - | player
      · simp only [hfind]; exact hOK
      · simp only [hfind]
        by_cases hl : (!player.isLeader) = true
        · rw [if_pos hl]; exact hOK
        · rw [if_neg hl]
          have hr1 : roomOK { room with
              roomData := { room.roomData with findingGame := true } } = true :=
            menuOK_get tm _ room hOK hroom
          rcases hres : ctx.findGameRes with - | gameId
          · simp only [hres]
            exact menuOK_set tm _ _ hOK hr1
          · simp only [hres]
            rcases hgame : ctx.games.find? (fun game => game.id == gameId)
              with - | game
            · simp only [hgame]
              exact menuOK_set tm _ _ hOK hr1
            · simp only [hgame]
              by_cases hmode : (game.teamMode != room.roomData.gameModeIdx * 2) = true
              · rw [if_pos hmode]
                exact menuOK_set tm _ _ hOK hr1
              · rw [if_neg hmode]
                apply menuOK_set tm _ _ hOK
                have hr := (roomOK_iff room).mp (menuOK_get tm _ room hOK hroom)
                rw [roomOK_iff]
                constructor
                · simpa using hr.1
                · rw [List.countP_map]
                  exact hr.2
  | gameComplete =>
    simp only [handleMsg]
    rcases hroom : mapGet tm.rooms c.roomUrl with - | room
    · simp only [hroom]; exact hOK
    · simp only [hroom]
      rcases hfind : room.players.find? (fun p => p.socketId == c.socketId)
        with - | player
      · simp only [hfind]; exact hOK
      · simp only [hfind]
        apply menuOK_set tm _ _ hOK
        have hr := (roomOK_iff room).mp (menuOK_get tm _ room hOK hroom)
        have hu := updateFirst_countP (fun p => p.socketId == c.socketId)
          (fun p => { p with inGame := false }) (fun p => rfl) room.players
        rw [roomOK_iff]
        constructor
        · intro hnil
          simp only at hnil
          have hlen := hu.2
          rw [hnil] at hlen
          exact hr.1 (List.length_eq_zero.mp hlen.symm)
        · rw [hu.1, hr.2]

/-- C9: every non-empty room in the lobby map has exactly one leader, and
this invariant is preserved by every lobby message handler and by player
removal (disconnect or kick) whenever the removed container's player is a
member of its room. -/
theorem leader_invariant (tm : TeamMenu) (c : Container) (msg : CMsg)
    (ctx : MenuCtx) (hOK : menuOK tm = true) :
    menuOK (handleMsg tm c msg ctx).menu = true
    ∧ ((∀ room, mapGet tm.rooms c.roomUrl = some room →
          ∃ p ∈ room.players, p.socketId = c.socketId) →
        menuOK (removePlayer tm c).1 = true) :=
  ⟨handleMsg_menuOK tm c msg ctx hOK,
   fun hpres => removePlayer_menuOK tm c hOK hpres⟩

/-- Witness for C9 at the concrete two-player room: the invariant holds
before and after a kick by the leader, and after removing the member by
disconnect. -/
theorem leader_invariant_witness :
    menuOK duoMenu = true
    ∧ menuOK (handleMsg duoMenu leaderC (.kick 1) errCtx).menu = true
    ∧ menuOK (removePlayer duoMenu ⟨"#AAAA", 1⟩).1 = true := by
  have h1 := leader_invariant duoMenu leaderC (.kick 1) errCtx (by decide)
  have h2 := leader_invariant duoMenu ⟨"#AAAA", 1⟩ CMsg.keepAlive errCtx (by decide)
  refine ⟨by decide, h1.1, h2.2 ?_⟩
  intro room hroom
  have h3 : mapGet duoMenu.rooms (Container.roomUrl ⟨"#AAAA", 1⟩) = some duoRoom := rfl
  rw [h3] at hroom
  obtain rfl : duoRoom = room := Option.some.inj hroom
  exact ⟨memberP, by decide, rfl⟩

end Resurviv
